import Mathlib

/-!
Verification of the kytan `tuntap.rs` TUN-device layer against its
natural-language specification.  Bytes are modelled as `Nat` (each byte is
in `[0, 256)` where it matters), byte buffers as `List Nat`, and the OS
handle as explicit data passed in and out of each operation.  A `none`
result models a Rust panic (index out of bounds, arithmetic underflow, or a
failed `unwrap`).
-/

set_option autoImplicit false
set_option maxRecDepth 8192

namespace Kytan

/-- MTU string passed to ifconfig, from `const MTU: &'static str = "1380"`. -/
def MTU : String := "1380"

/-- macOS address-family header selection, from `Tun::write` (macos):
`let ip_v = buf[0] & 0xf; if ip_v == 6 { vec![0,0,0,10] } else { vec![0,0,0,2] }`.
Note the source masks with `0xf`, i.e. it reads the LOW nibble of the first
payload byte. -/
def afHeader (b0 : Nat) : List Nat :=
  if b0 &&& 0xf == 6 then [0, 0, 0, 10] else [0, 0, 0, 2]

/-- Follows the spec's words, for comparison with `afHeader`: the spec says the
HIGH nibble of the payload's first byte determines the IP version, version 6
selecting the IPv6 address-family code 10 and anything else the IPv4 code 2. -/
def specAfHeader (b0 : Nat) : List Nat :=
  if b0 >>> 4 == 6 then [0, 0, 0, 10] else [0, 0, 0, 2]

/-- macOS `Tun::write`, wire side: `buf[0]` panics (`none`) on an empty
payload; otherwise the 4-byte header is prepended (`data.write_all(buf)`)
and the combined buffer is what is handed to `self.handle.write`. -/
def macosWriteWire (payload : List Nat) : Option (List Nat) :=
  match payload with
  | [] => none
  | b0 :: _ => some (afHeader b0 ++ payload)

/-- macOS `Tun::write`, reported count, from
`Ok(len) => Ok(if len > 4 { len - 4 } else { 0 })` where `len` is the count
returned by the OS write. -/
def writeReport (osLen : Nat) : Nat :=
  if osLen > 4 then osLen - 4 else 0

/-- macOS `Tun::write` end to end: the wire bytes handed to the OS and the
count reported to the caller, given that the OS write accepted `osLen` bytes. -/
def macosWrite (payload : List Nat) (osLen : Nat) : Option (List Nat × Nat) :=
  match macosWriteWire payload with
  | none => none
  | some wire => some (wire, writeReport osLen)

/-- macOS `Tun::read`: the OS read fills a 1600-byte scratch buffer `data`,
returning `len = min wire.length 1600` bytes when `wire` is what the loopback
has to deliver.  The source then runs
`buf[..len - 4].clone_from_slice(&data[4..len])` BEFORE the `len > 4` test:
with `len < 4` the usize subtraction `len - 4` underflows and panics
(`none`); with a caller buffer shorter than `len - 4` the slice `buf[..len-4]`
panics.  Otherwise the first `len - 4` caller bytes are overwritten with
`data[4..len]`, the rest of the caller buffer is untouched, and
`if len > 4 { len - 4 } else { 0 }` is reported. -/
def macosRead (wire : List Nat) (buf : List Nat) : Option (List Nat × Nat) :=
  let len := min wire.length 1600
  if len < 4 then none
  else if buf.length < len - 4 then none
  else some ((wire.take len).drop 4 ++ buf.drop (len - 4),
             if len > 4 then len - 4 else 0)

/-- macOS send-then-receive with the OS handle as a lossless loopback: the
bytes handed to the OS write are exactly what the subsequent OS read has to
deliver. -/
def macosRoundTrip (payload : List Nat) (buf : List Nat) : Option (List Nat × Nat) :=
  match macosWriteWire payload with
  | none => none
  | some wire => macosRead wire buf

/-- C1: the claim says the HIGH nibble of the first payload byte selects the
address-family header.  The code masks with `0xf` (LOW nibble): at first byte
`0x60` (an IPv6 packet, high nibble 6, low nibble 0) the code emits the IPv4
header `[0,0,0,2]` while the spec's selector emits `[0,0,0,10]`, so the code
contradicts the claim; the two selectors also disagree at `0x46`. -/
theorem c1_header_selector_is_low_nibble :
    afHeader 0x60 = [0, 0, 0, 2] ∧ specAfHeader 0x60 = [0, 0, 0, 10] ∧
    afHeader 0x46 = [0, 0, 0, 10] ∧ specAfHeader 0x46 = [0, 0, 0, 2] ∧
    macosWriteWire [0x60] = some ([0, 0, 0, 2] ++ [0x60]) := by
  refine ⟨by decide, by decide, by decide, by decide, ?_⟩
  decide

/-- C9: macOS `Tun::write` reads `buf[0]` unconditionally, so an empty payload
panics (modelled `none`) rather than returning an error value, and any
non-empty payload passes the classification step: totality of send needs the
payload to be non-empty. -/
theorem c9_send_panics_on_empty :
    macosWriteWire [] = none ∧
    ∀ (b : Nat) (rest : List Nat), (macosWriteWire (b :: rest)).isSome = true := by
  exact ⟨rfl, fun b rest => rfl⟩

/-- C2: the claim says a successful OS read of fewer than 4 bytes makes
receive report 0 and leave the caller buffer untouched.  The code computes
`buf[..len - 4]` before the `len > 4` test, so at `len = 3` the usize
subtraction underflows and the call panics (`none`) instead of reporting 0.
The `len ≥ 4` half of the claim does hold: with an adequate caller buffer the
leading 4 bytes are stripped and `len - 4` is reported. -/
theorem c2_short_read_panics :
    macosRead [7, 7, 7] (List.replicate 16 0) = none ∧
    macosRead [0, 0, 0, 2, 9, 8] (List.replicate 16 0) =
      some ([9, 8] ++ List.replicate 14 0, 2) := by
  constructor
  · decide
  · decide

/-- C3: for every non-empty payload, when the OS write accepts `osLen` bytes
macOS send reports exactly `max 0 (osLen - 4)` (over the integers), hence
never a negative count and 0 whenever `osLen ≤ 4`. -/
theorem c3_report_is_clamped_sub (p : List Nat) (hp : p ≠ []) (osLen : Nat) :
    (macosWrite p osLen).map Prod.snd = some (writeReport osLen) ∧
    (writeReport osLen : Int) = max 0 ((osLen : Int) - 4) := by
  constructor
  · match p with
    | [] => exact absurd rfl hp
    | b :: rest => rfl
  · unfold writeReport
    split <;> push_cast <;> omega

/-- Witness for C3 at a concrete input. -/
theorem c3_report_is_clamped_sub_witness :
    (macosWrite [0x45, 1] 10).map Prod.snd = some (writeReport 10) ∧
    (writeReport 10 : Int) = max 0 ((10 : Int) - 4) :=
  c3_report_is_clamped_sub [0x45, 1] (by decide) 10

/-- C10: macOS receive copies `len - 4` bytes into the caller's buffer with an
exact-length slice copy out of the 1600-byte scratch; whenever the caller
buffer is shorter than `len - 4` (with `len` the OS read count,
`min wire.length 1600`), the slice panics (`none`) instead of truncating, so
receive can only complete when the caller buffer holds the stripped payload. -/
theorem c10_short_caller_buffer_panics (wire buf : List Nat)
    (hb : buf.length < min wire.length 1600 - 4) :
    macosRead wire buf = none := by
  unfold macosRead
  dsimp only
  split <;> try rfl

/-- Witness for C10 at a concrete input. -/
theorem c10_short_caller_buffer_panics_witness :
    macosRead (List.replicate 10 7) [0, 0] = none :=
  c10_short_caller_buffer_panics (List.replicate 10 7) [0, 0] (by decide)

/-- Length of the address-family header is always 4 bytes. -/
theorem afHeader_length (b0 : Nat) : (afHeader b0).length = 4 := by
  unfold afHeader
  split <;> rfl

/-- C4 (amended): the macOS send/receive round trip over a lossless loopback
restores the payload byte for byte, with the 4-byte header never reaching the
caller, for every non-empty payload that fits the 1600-byte read scratch
after the 4-byte header (length at most 1596) and a caller buffer at least
as long as the payload; the bytes of the caller buffer beyond the payload are
untouched.  The unrestricted claim fails for longer payloads because the OS
read caps at the 1600-byte scratch: see the counterexample. -/
theorem c4_roundtrip (p buf : List Nat) (hp : p ≠ [])
    (hlen : p.length ≤ 1596) (hbuf : p.length ≤ buf.length) :
    macosRoundTrip p buf = some (p ++ buf.drop p.length, p.length) := by
  match p, hp with
  | b0 :: rest, _ =>
    show macosRead (afHeader b0 ++ b0 :: rest) buf = _
    have hw : (afHeader b0 ++ b0 :: rest).length = 4 + (b0 :: rest).length := by
      rw [List.length_append, afHeader_length]
    unfold macosRead
    dsimp only
    have hmin : min (afHeader b0 ++ b0 :: rest).length 1600 =
        (afHeader b0 ++ b0 :: rest).length := by
      rw [hw]
      omega
    rw [hmin, List.take_length, hw]
    have h4 : ¬ (4 + (b0 :: rest).length < 4) := by omega
    have hb : ¬ (buf.length < 4 + (b0 :: rest).length - 4) := by
      simp only [List.length_cons] at hbuf ⊢
      omega
    rw [if_neg h4, if_neg hb]
    have hdrop : (afHeader b0 ++ b0 :: rest).drop 4 = b0 :: rest := by
      conv in List.drop 4 => rw [show 4 = (afHeader b0).length from (afHeader_length b0).symm]
      exact List.drop_left _ _
    rw [hdrop]
    have hrep : 4 + (b0 :: rest).length - 4 = (b0 :: rest).length := by omega
    rw [hrep, if_pos (by simp)]

/-- Witness for C4 at a concrete input. -/
theorem c4_roundtrip_witness :
    macosRoundTrip [0x45, 1, 2] (List.replicate 8 9) =
      some ([0x45, 1, 2] ++ (List.replicate 8 9).drop ([0x45, 1, 2] : List Nat).length,
            ([0x45, 1, 2] : List Nat).length) :=
  c4_roundtrip [0x45, 1, 2] (List.replicate 8 9) (by decide) (by decide) (by decide)

/-- Counterexample to C4 as stated: a 1597-byte payload does not round trip.
Send puts 4 + 1597 = 1601 bytes on the wire, the OS read caps at the
1600-byte scratch, and the caller gets back only 1596 payload bytes, so the
decoded payload is not byte-for-byte identical to the 1597-byte original. -/
theorem c4_counterexample :
    (macosRoundTrip (List.replicate 1597 1) (List.replicate 1600 0)).map Prod.snd =
      some 1596 ∧ 1596 ≠ 1597 := by
  constructor
  · show (macosRoundTrip (1 :: List.replicate 1596 1) (List.replicate 1600 0)).map
        Prod.snd = some 1596
    show ((macosRead (afHeader 1 ++ 1 :: List.replicate 1596 1)
        (List.replicate 1600 0)).map Prod.snd) = some 1596
    have hw : (afHeader 1 ++ 1 :: List.replicate 1596 1).length = 1601 := by
      rw [List.length_append, afHeader_length]
      simp
    unfold macosRead
    dsimp only
    rw [hw]
    have hm : (1601 : Nat) ⊓ 1600 = 1600 := by norm_num
    rw [hm, List.length_replicate]
    rw [if_neg (by norm_num), if_neg (by norm_num), if_pos (by norm_num)]
    rfl
  · omega

/-- Platform A (Linux) `Tun::write`: the payload is handed to
`self.handle.write` unchanged; the OS handle's return value is reported to the
caller as is.  The first component is the byte sequence the OS handle
receives, the second the reported count. -/
def linuxWrite (osWrite : List Nat → Nat) (payload : List Nat) : List Nat × Nat :=
  (payload, osWrite payload)

/-- Platform A (Linux) `Tun::read`: the caller's buffer is handed straight to
`self.handle.read`, so whatever the OS read delivers reaches the caller
unchanged. -/
def linuxRead (osRead : List Nat → List Nat × Nat) (buf : List Nat) : List Nat × Nat :=
  osRead buf

/-- C5: Linux send and receive are exact pass-throughs: the bytes handed to
send reach the OS handle identical byte for byte and in length, and the OS
read's result reaches the caller unchanged; no header is added or removed in
either direction. -/
theorem c5_linux_passthrough :
    ∀ (osWrite : List Nat → Nat) (p : List Nat)
      (osRead : List Nat → List Nat × Nat) (buf : List Nat),
      (linuxWrite osWrite p).1 = p ∧
      (linuxWrite osWrite p).1.length = p.length ∧
      (linuxWrite osWrite p).2 = osWrite p ∧
      linuxRead osRead buf = osRead buf :=
  fun _ _ _ _ => ⟨rfl, rfl, rfl, rfl⟩

/-- One invocation of the external configuration command. -/
structure Cmd where
  program : String
  args : List String

/-- Linux branch of `Tun::up`: two ifconfig invocations, from
`Command::new("ifconfig").arg(name).arg(format)` with
`format = "10.10.10.{self_id}/24"`, then
`Command::new("ifconfig").arg(name).arg("mtu").arg(MTU).arg("up")`. -/
def linuxUpCmds (ifName : String) (selfId : Nat) : List Cmd :=
  [⟨"ifconfig", [ifName, "10.10.10." ++ toString selfId ++ "/24"]⟩,
   ⟨"ifconfig", [ifName, "mtu", MTU, "up"]⟩]

/-- macOS branch of `Tun::up`: two ifconfig invocations, the first with the
local address `"10.10.10.{self_id}"` and the fixed peer `"10.10.10.1"`. -/
def macosUpCmds (ifName : String) (selfId : Nat) : List Cmd :=
  [⟨"ifconfig", [ifName, "10.10.10." ++ toString selfId, "10.10.10.1"]⟩,
   ⟨"ifconfig", [ifName, "mtu", MTU, "up"]⟩]

/-- C7: `up` invokes the external configuration command exactly twice on each
platform: first to assign the address (Linux a single CIDR argument, macOS the
local plus the fixed peer address), second to set the fixed MTU 1380 and mark
the interface up; with self-id 7 the address arguments carry the literal
substring "10.10.10.7". -/
theorem c7_up_invocations (ifName : String) (selfId : Nat) :
    (linuxUpCmds ifName selfId).length = 2 ∧
    (macosUpCmds ifName selfId).length = 2 ∧
    linuxUpCmds ifName selfId =
      [⟨"ifconfig", [ifName, "10.10.10." ++ toString selfId ++ "/24"]⟩,
       ⟨"ifconfig", [ifName, "mtu", "1380", "up"]⟩] ∧
    macosUpCmds ifName selfId =
      [⟨"ifconfig", [ifName, "10.10.10." ++ toString selfId, "10.10.10.1"]⟩,
       ⟨"ifconfig", [ifName, "mtu", "1380", "up"]⟩] ∧
    linuxUpCmds ifName 7 =
      [⟨"ifconfig", [ifName, "10.10.10.7" ++ "/24"]⟩,
       ⟨"ifconfig", [ifName, "mtu", "1380", "up"]⟩] ∧
    macosUpCmds ifName 7 =
      [⟨"ifconfig", [ifName, "10.10.10.7", "10.10.10.1"]⟩,
       ⟨"ifconfig", [ifName, "mtu", "1380", "up"]⟩] := by
  refine ⟨rfl, rfl, rfl, rfl, ?_, ?_⟩
  · have h7 : "10.10.10." ++ toString (7 : Nat) ++ "/24" = "10.10.10.7" ++ "/24" := by
      decide
    unfold linuxUpCmds
    rw [h7]
    rfl
  · have h7 : "10.10.10." ++ toString (7 : Nat) = "10.10.10.7" := by decide
    unfold macosUpCmds
    rw [h7]
    rfl

/-- IFNAMSIZ from the Linux branch. -/
def IFNAMSIZ : Nat := 16

/-- Bytes of an ASCII string, as `as_bytes` yields for the names involved. -/
def strBytes (s : String) : List Nat :=
  s.data.map Char.toNat

/-- Linux `ifr_name` request buffer: a 16-byte buffer whose head is
`format("tun{}", name)` and whose tail is zero, from
`buffer[..full_name.len()].clone_from_slice(full_name.as_bytes())`. -/
def linuxIfreqName (name : Nat) : List Nat :=
  let bs := strBytes ("tun" ++ toString name)
  bs ++ List.replicate (IFNAMSIZ - bs.length) 0

/-- Decoding of the kernel-written name buffer, from
`let size = req.ifr_name.iter().position(|&r| r == 0).unwrap()` followed by
`String::from_utf8(req.ifr_name[..size].to_vec()).unwrap()`: scan for the
first zero byte (`none` models the unwrap panic when there is none) and
decode the prefix before it. -/
def decodeIfName (buffer : List Nat) : Option String :=
  match buffer.findIdx? (fun b => b == 0) with
  | none => none
  | some size => some (String.mk ((buffer.take size).map Char.ofNat))

/-- Linux resolved interface name, with the kernel modelled as writing back
the requested buffer unchanged (the well-behaved kernel of the spec). -/
def linuxResolvedName (name : Nat) : Option String :=
  decodeIfName (linuxIfreqName name)

/-- macOS resolved interface name, from `format("utun{}", name)`; it is built
by convention, not read back from the kernel. -/
def macosResolvedName (name : Nat) : String :=
  "utun" ++ toString name

/-- C6: for every index in the u8 range, the open operation resolves the
interface name to exactly the platform convention: on Linux the 16-byte
kernel-written buffer decoded up to its first zero byte gives
`"tun" ++ index`, and on macOS the conventional name is `"utun" ++ index`. -/
theorem c6_resolved_names (i : Nat) (h : i < 256) :
    linuxResolvedName i = some ("tun" ++ toString i) ∧
    macosResolvedName i = "utun" ++ toString i := by
  revert h
  revert i
  decide

/-- Witness for C6 at index 5: the names are exactly "tun5" and "utun5". -/
theorem c6_resolved_names_witness :
    linuxResolvedName 5 = some ("tun" ++ toString 5) ∧
    macosResolvedName 5 = "utun" ++ toString 5 :=
  c6_resolved_names 5 (by decide)

/-- OS interaction steps of the two `create_if` branches, in the order the
source performs them. -/
inductive OsStep where
  | openDev
  | tunIoctl
  | ctlSocket
  | ctlIoctl
  | ctlConnect
  | setNonblock
  | setCloexec
deriving DecidableEq

/-- Outcome of each fallible OS call in the Linux `create_if`: the device-file
open yields a file handle or fails, and the TUNSETIFF ioctl either fails
(negative return) or writes the name buffer back. -/
structure LinuxOs where
  openRes : Option Nat
  ioctlRes : List Nat → Option (List Nat)

/-- Linux `Tun::create_if`: open the device file (panic on failure), issue the
single TUNSETIFF ioctl with the prepared name buffer (panic on negative
return), then decode the written-back name.  The first component is the trace
of OS steps attempted, the second `none` on any panic and otherwise the
returned (handle, name) pair. -/
def linuxCreateIf (os : LinuxOs) (name : Nat) : List OsStep × Option (Nat × String) :=
  match os.openRes with
  | none => ([OsStep.openDev], none)
  | some fd =>
    match os.ioctlRes (linuxIfreqName name) with
    | none => ([OsStep.openDev, OsStep.tunIoctl], none)
    | some buffer =>
      match decodeIfName buffer with
      | none => ([OsStep.openDev, OsStep.tunIoctl], none)
      | some nm => ([OsStep.openDev, OsStep.tunIoctl], some (fd, nm))

/-- Outcome of each fallible OS call in the macOS `create_if`: socket
creation, the CTLIOCGINFO ioctl (yielding the control id), the connect that
creates the interface, and the two fcntl calls whose results are unwrapped. -/
structure MacOs where
  socketRes : Option Nat
  ioctlRes : Option Nat
  connectOk : Bool
  fcntlFlOk : Bool
  fcntlFdOk : Bool

/-- macOS `Tun::create_if`: create the control socket (panic on a negative
fd), query the control id via CTLIOCGINFO (close and panic on failure),
connect with unit `name + 1` (panic on failure), set O_NONBLOCK and
FD_CLOEXEC (unwrap panics), then return the handle with the conventional name
`"utun" ++ name`. -/
def macosCreateIf (os : MacOs) (name : Nat) : List OsStep × Option (Nat × String) :=
  match os.socketRes with
  | none => ([OsStep.ctlSocket], none)
  | some fd =>
    match os.ioctlRes with
    | none => ([OsStep.ctlSocket, OsStep.ctlIoctl], none)
    | some _ =>
      if !os.connectOk then
        ([OsStep.ctlSocket, OsStep.ctlIoctl, OsStep.ctlConnect], none)
      else if !os.fcntlFlOk then
        ([OsStep.ctlSocket, OsStep.ctlIoctl, OsStep.ctlConnect, OsStep.setNonblock], none)
      else if !os.fcntlFdOk then
        ([OsStep.ctlSocket, OsStep.ctlIoctl, OsStep.ctlConnect, OsStep.setNonblock,
          OsStep.setCloexec], none)
      else
        ([OsStep.ctlSocket, OsStep.ctlIoctl, OsStep.ctlConnect, OsStep.setNonblock,
          OsStep.setCloexec], some (fd, macosResolvedName name))

/-- C8: on both platforms `create_if` is all-or-nothing with no retry.  For
every oracle of OS outcomes: the trace of attempted steps is a duplicate-free
prefix of the platform's fixed step order (so no step is ever retried and
none is reordered); a successful result means every step of the platform
sequence ran; and when the result is a device it carries exactly the handle
the OS produced together with a resolved name, while any failure yields no
device at all. -/
theorem c8_create_all_or_nothing (osL : LinuxOs) (osM : MacOs) (name : Nat) :
    ((∃ rest, (linuxCreateIf osL name).1 ++ rest = [OsStep.openDev, OsStep.tunIoctl]) ∧
     (linuxCreateIf osL name).1.Nodup ∧
     (∀ fd nm, (linuxCreateIf osL name).2 = some (fd, nm) →
       (linuxCreateIf osL name).1 = [OsStep.openDev, OsStep.tunIoctl] ∧
       osL.openRes = some fd)) ∧
    ((∃ rest, (macosCreateIf osM name).1 ++ rest =
        [OsStep.ctlSocket, OsStep.ctlIoctl, OsStep.ctlConnect, OsStep.setNonblock,
         OsStep.setCloexec]) ∧
     (macosCreateIf osM name).1.Nodup ∧
     (∀ fd nm, (macosCreateIf osM name).2 = some (fd, nm) →
       (macosCreateIf osM name).1 =
         [OsStep.ctlSocket, OsStep.ctlIoctl, OsStep.ctlConnect, OsStep.setNonblock,
          OsStep.setCloexec] ∧
       osM.socketRes = some fd ∧ nm = macosResolvedName name)) := by
  constructor
  · rcases hopen : osL.openRes with _ | fd
    · have ht : linuxCreateIf osL name = ([OsStep.openDev], none) := by
        simp [linuxCreateIf, hopen]
      rw [ht]
      exact ⟨⟨[OsStep.tunIoctl], rfl⟩, by decide, fun fd nm h => by simp at h⟩
    · rcases hioctl : osL.ioctlRes (linuxIfreqName name) with _ | buffer
      · have ht : linuxCreateIf osL name = ([OsStep.openDev, OsStep.tunIoctl], none) := by
          simp [linuxCreateIf, hopen, hioctl]
        rw [ht]
        exact ⟨⟨[], rfl⟩, by decide, fun fd nm h => by simp at h⟩
      · rcases hdec : decodeIfName buffer with _ | nm
        · have ht : linuxCreateIf osL name = ([OsStep.openDev, OsStep.tunIoctl], none) := by
            simp [linuxCreateIf, hopen, hioctl, hdec]
          rw [ht]
          exact ⟨⟨[], rfl⟩, by decide, fun fd nm h => by simp at h⟩
        · have ht : linuxCreateIf osL name =
              ([OsStep.openDev, OsStep.tunIoctl], some (fd, nm)) := by
            simp [linuxCreateIf, hopen, hioctl, hdec]
          rw [ht]
          refine ⟨⟨[], rfl⟩,
            by show ([OsStep.openDev, OsStep.tunIoctl] : List OsStep).Nodup; decide,
            fun fd' nm' h => ?_⟩
          simp only [Option.some.injEq, Prod.mk.injEq] at h
          exact ⟨rfl, by rw [h.1]⟩
  · rcases hsock : osM.socketRes with _ | fd
    · have ht : macosCreateIf osM name = ([OsStep.ctlSocket], none) := by
        simp [macosCreateIf, hsock]
      rw [ht]
      exact ⟨⟨[OsStep.ctlIoctl, OsStep.ctlConnect, OsStep.setNonblock,
        OsStep.setCloexec], rfl⟩, by decide, fun fd nm h => by simp at h⟩
    · rcases hioctl : osM.ioctlRes with _ | cid
      · have ht : macosCreateIf osM name =
            ([OsStep.ctlSocket, OsStep.ctlIoctl], none) := by
          simp [macosCreateIf, hsock, hioctl]
        rw [ht]
        exact ⟨⟨[OsStep.ctlConnect, OsStep.setNonblock, OsStep.setCloexec], rfl⟩,
          by decide, fun fd nm h => by simp at h⟩
      · rcases hconn : osM.connectOk with _ | _
        · have ht : macosCreateIf osM name =
              ([OsStep.ctlSocket, OsStep.ctlIoctl, OsStep.ctlConnect], none) := by
            simp [macosCreateIf, hsock, hioctl, hconn]
          rw [ht]
          exact ⟨⟨[OsStep.setNonblock, OsStep.setCloexec], rfl⟩, by decide,
            fun fd nm h => by simp at h⟩
        · rcases hfl : osM.fcntlFlOk with _ | _
          · have ht : macosCreateIf osM name =
                ([OsStep.ctlSocket, OsStep.ctlIoctl, OsStep.ctlConnect,
                  OsStep.setNonblock], none) := by
              simp [macosCreateIf, hsock, hioctl, hconn, hfl]
            rw [ht]
            exact ⟨⟨[OsStep.setCloexec], rfl⟩, by decide, fun fd nm h => by simp at h⟩
          · rcases hfd : osM.fcntlFdOk with _ | _
            · have ht : macosCreateIf osM name =
                  ([OsStep.ctlSocket, OsStep.ctlIoctl, OsStep.ctlConnect,
                    OsStep.setNonblock, OsStep.setCloexec], none) := by
                simp [macosCreateIf, hsock, hioctl, hconn, hfl, hfd]
              rw [ht]
              exact ⟨⟨[], rfl⟩, by decide, fun fd nm h => by simp at h⟩
            · have ht : macosCreateIf osM name =
                  ([OsStep.ctlSocket, OsStep.ctlIoctl, OsStep.ctlConnect,
                    OsStep.setNonblock, OsStep.setCloexec],
                   some (fd, macosResolvedName name)) := by
                simp [macosCreateIf, hsock, hioctl, hconn, hfl, hfd]
              rw [ht]
              refine ⟨⟨[], rfl⟩,
                by show ([OsStep.ctlSocket, OsStep.ctlIoctl, OsStep.ctlConnect,
                    OsStep.setNonblock, OsStep.setCloexec] : List OsStep).Nodup; decide,
                fun fd' nm' h => ?_⟩
              simp only [Option.some.injEq, Prod.mk.injEq] at h
              exact ⟨rfl, by rw [h.1], h.2.symm⟩

/-- Witness for C8 with concrete oracles: a fully successful Linux open and a
macOS open failing at connect. -/
theorem c8_create_all_or_nothing_witness :
    ((∃ rest, (linuxCreateIf ⟨some 3, fun b => some b⟩ 5).1 ++ rest =
        [OsStep.openDev, OsStep.tunIoctl]) ∧
     (linuxCreateIf ⟨some 3, fun b => some b⟩ 5).1.Nodup ∧
     (∀ fd nm, (linuxCreateIf ⟨some 3, fun b => some b⟩ 5).2 = some (fd, nm) →
       (linuxCreateIf ⟨some 3, fun b => some b⟩ 5).1 = [OsStep.openDev, OsStep.tunIoctl] ∧
       (⟨some 3, fun b => some b⟩ : LinuxOs).openRes = some fd)) ∧
    ((∃ rest, (macosCreateIf ⟨some 4, some 9, false, true, true⟩ 5).1 ++ rest =
        [OsStep.ctlSocket, OsStep.ctlIoctl, OsStep.ctlConnect, OsStep.setNonblock,
         OsStep.setCloexec]) ∧
     (macosCreateIf ⟨some 4, some 9, false, true, true⟩ 5).1.Nodup ∧
     (∀ fd nm, (macosCreateIf ⟨some 4, some 9, false, true, true⟩ 5).2 = some (fd, nm) →
       (macosCreateIf ⟨some 4, some 9, false, true, true⟩ 5).1 =
         [OsStep.ctlSocket, OsStep.ctlIoctl, OsStep.ctlConnect, OsStep.setNonblock,
          OsStep.setCloexec] ∧
       (⟨some 4, some 9, false, true, true⟩ : MacOs).socketRes = some fd ∧
       nm = macosResolvedName 5)) :=
  c8_create_all_or_nothing ⟨some 3, fun b => some b⟩ ⟨some 4, some 9, false, true, true⟩ 5

end Kytan
